import Mathlib

/-!
Verification development for the ETL pipeline in
`dags/duckdb__scraping__property.py`.

The pipeline reads a JSONL file with pyarrow using an explicit schema
(`PA_SCHEMA`), creates a DuckDB table `properties` with
`CREATE TABLE IF NOT EXISTS` (`CREATE_DUCKDB_TABLE_QUERY`), and appends the
filtered/transformed rows with `INSERT_DUCKDB_TABLE_QUERY`, logging row
counts along the way.

Shallow embedding choices:
* JSON scalars carry `String`/`ℚ` payloads; DOUBLE arithmetic is modelled
  over `ℚ` (all values in the claims are exactly representable).
* SQL NULL is `Option`; the three-valued `WHERE` clause evaluates to
  "keep" only when every conjunct is TRUE, which the `Bool`-valued
  `passesFilter` captures (NULL comparisons yield `false`).
* Division by zero yields NULL here; under IEEE semantics it would yield
  ±inf/nan, which the `BETWEEN 500 AND 15000` conjunct also rejects, so
  every downstream statement is insensitive to this choice.
* The pyarrow parse enforces the declared `PA_SCHEMA`: per-field type
  check and the nullability flag (`id` is non-nullable); any violation
  aborts the whole read, before the database is touched.
* The `INSERT` is a single statement: it either appends exactly the rows
  passing the filter, or (on a NOT NULL constraint violation) fails
  atomically, leaving the table unchanged.
-/

namespace PropertyETL

/-- A JSON scalar value as it appears on an input line. -/
inductive JsonValue where
  | jnull
  | jstr (s : String)
  | jnum (q : ℚ)
  | jbool (b : Bool)
deriving DecidableEq

/-- One input line: a JSON object, field name to value. -/
abbrev JsonObject := List (String × JsonValue)

/-- Field lookup in a JSON object (first binding wins). -/
def lookupField (obj : JsonObject) (name : String) : Option JsonValue :=
  match obj.find? (fun kv => kv.1 == name) with
  | some kv => some kv.2
  | none => none

/-- The two pyarrow types used by `PA_SCHEMA`: `pa.string()` and `pa.float64()`. -/
inductive PAType where
  | paString
  | paFloat64
deriving DecidableEq

/-- One `pa.field(...)` declaration: name, type and nullability. -/
structure PAField where
  name : String
  ptype : PAType
  nullable : Bool
deriving DecidableEq

def idField : PAField := ⟨"id", .paString, false⟩
def rawPriceField : PAField := ⟨"raw_price", .paString, true⟩
def livingAreaField : PAField := ⟨"living_area", .paFloat64, true⟩
def propertyTypeField : PAField := ⟨"property_type", .paString, true⟩
def municipalityField : PAField := ⟨"municipality", .paString, true⟩
def scrapingDateField : PAField := ⟨"scraping_date", .paString, true⟩

/-- `PA_SCHEMA` from the source: `id` is the only non-nullable field. -/
def PA_SCHEMA : List PAField :=
  [idField, rawPriceField, livingAreaField, propertyTypeField,
   municipalityField, scrapingDateField]

/-- Validate one declared field against a JSON object: a missing or null
value is accepted only when the field is nullable; a present value must
match the declared type. Models the strict schema enforcement of
`pyarrow.json.read_json` with `explicit_schema=PA_SCHEMA`. -/
def parseField (obj : JsonObject) (f : PAField) : Except String (Option JsonValue) :=
  match lookupField obj f.name with
  | none =>
      if f.nullable then .ok none
      else .error (f.name ++ ": unexpected null in non-nullable field")
  | some .jnull =>
      if f.nullable then .ok none
      else .error (f.name ++ ": unexpected null in non-nullable field")
  | some v =>
      match f.ptype, v with
      | .paString, .jstr _ => .ok (some v)
      | .paFloat64, .jnum _ => .ok (some v)
      | _, _ => .error (f.name ++ ": JSON value does not match declared type")

/-- Extract the string payload of a validated string field. -/
def asStr : Option JsonValue → Option String
  | some (.jstr s) => some s
  | _ => none

/-- Extract the numeric payload of a validated float64 field. -/
def asNum : Option JsonValue → Option ℚ
  | some (.jnum q) => some q
  | _ => none

/-- A Raw Record: one parsed input line, fields per `PA_SCHEMA`
(`id` required, all other fields nullable). -/
structure RawRecord where
  id : String
  raw_price : Option String
  living_area : Option ℚ
  property_type : Option String
  municipality : Option String
  scraping_date : Option String
deriving DecidableEq

/-- Parse one JSON line against `PA_SCHEMA`; any type or nullability
violation is an error. -/
def parseRecord (obj : JsonObject) : Except String RawRecord :=
  match parseField obj idField with
  | .error e => .error e
  | .ok vid =>
      match parseField obj rawPriceField with
      | .error e => .error e
      | .ok vrp =>
          match parseField obj livingAreaField with
          | .error e => .error e
          | .ok vla =>
              match parseField obj propertyTypeField with
              | .error e => .error e
              | .ok vpt =>
                  match parseField obj municipalityField with
                  | .error e => .error e
                  | .ok vmu =>
                      match parseField obj scrapingDateField with
                      | .error e => .error e
                      | .ok vsd =>
                          match asStr vid with
                          | some i =>
                              .ok ⟨i, asStr vrp, asNum vla, asStr vpt,
                                   asStr vmu, asStr vsd⟩
                          | none =>
                              .error "id: unexpected null in non-nullable field"

/-- Parse the whole batch; the first schema violation aborts the read
(no partial success, no skip-and-continue). -/
def parseBatch : List JsonObject → Except String (List RawRecord)
  | [] => .ok []
  | o :: os =>
      match parseRecord o with
      | .error e => .error e
      | .ok r =>
          match parseBatch os with
          | .error e => .error e
          | .ok rs => .ok (r :: rs)

/-- Characters of `SPLIT_PART(s, sep, 1)` for a one-character separator:
everything strictly before the first occurrence (the whole string when
the separator does not occur). -/
def splitBeforeChar (sep : Char) : List Char → List Char
  | [] => []
  | c :: t => if c = sep then [] else c :: splitBeforeChar sep t

/-- `SPLIT_PART(raw_price, chr(8364), 1)`: the text before the currency marker. -/
def split_part_euro (s : String) : String :=
  ⟨splitBeforeChar (Char.ofNat 8364) s.data⟩

/-- `REPLACE(s, chr(32), blank)`: delete every space character. -/
def removeSpaces (s : String) : String :=
  ⟨s.data.filter (fun c => c ≠ ' ')⟩

/-- Consume leading decimal digits: accumulated value, digit count, rest. -/
def takeDigitsAux : List Char → ℕ → ℕ → ℕ × ℕ × List Char
  | [], acc, k => (acc, k, [])
  | c :: t, acc, k =>
      if c.isDigit then takeDigitsAux t (10 * acc + (c.toNat - 48)) (k + 1)
      else (acc, k, c :: t)

/-- `TRY_CAST(s AS DOUBLE)`: parse an optional sign, digits with optional
fraction, optional exponent; any leftover input or absent mantissa digit
makes the cast fail, yielding NULL (`none`). The accepted literal
`[sign] ip [. fp] [e/E [sign] ev]` denotes the exact rational
`sign * (ip * 10 ^ fk + fp) / 10 ^ fk` scaled by `10 ^ ev`, built here
with `Rat.divInt` over integer arithmetic. -/
def tryCastDouble (s : String) : Option ℚ :=
  let cs := s.data
  let sgncs : Bool × List Char :=
    match cs with
    | '-' :: t => (true, t)
    | '+' :: t => (false, t)
    | _ => (false, cs)
  let (ip, ik, cs1) := takeDigitsAux sgncs.2 0 0
  let fpcs : ℕ × ℕ × List Char :=
    match cs1 with
    | '.' :: t => takeDigitsAux t 0 0
    | _ => (0, 0, cs1)
  let (fp, fk, cs2) := fpcs
  if ik + fk = 0 then none
  else
    let mnum : ℤ :=
      if sgncs.1 then -((ip * 10 ^ fk + fp : ℕ) : ℤ) else ((ip * 10 ^ fk + fp : ℕ) : ℤ)
    match cs2 with
    | [] => some (Rat.divInt mnum (10 ^ fk))
    | 'e' :: t | 'E' :: t =>
        let esgnt : Bool × List Char :=
          match t with
          | '-' :: t2 => (true, t2)
          | '+' :: t2 => (false, t2)
          | _ => (false, t)
        let (ev, ek, t2) := takeDigitsAux esgnt.2 0 0
        if ek = 0 then none
        else
          match t2 with
          | [] =>
              some (if esgnt.1 then Rat.divInt mnum (10 ^ fk * 10 ^ ev)
                    else Rat.divInt (mnum * 10 ^ ev) (10 ^ fk))
          | _ => none
    | _ => none

/-- The `price` column:
`TRY_CAST(REPLACE(SPLIT_PART(raw_price, chr(8364), 1), chr(32), blank) AS DOUBLE)`;
NULL input or a failed cast yields NULL. -/
def computePrice (raw_price : Option String) : Option ℚ :=
  match raw_price with
  | none => none
  | some s => tryCastDouble (removeSpaces (split_part_euro s))

/-- Exact division of two rationals through numerators and denominators
(kernel-reducible; equal to `a / b` by `ratDiv_eq` below). -/
def ratDiv (a b : ℚ) : ℚ :=
  Rat.divInt (a.num * b.den) (a.den * b.num)

/-- Exact product of a rational with an integer (kernel-reducible; equal
to `q * k` by `qmulInt_eq` below). -/
def qmulInt (q : ℚ) (k : ℤ) : ℚ :=
  Rat.divInt (q.num * k) q.den

/-- Round to the nearest integer, ties away from zero (the rounding of
DuckDB ROUND on DOUBLE): `⌊q + 1/2⌋` for nonnegative `q`, mirrored for
negative `q`, written with integer floor division (`roundHalfAway_eq`
below restates it with `Int.floor`). -/
def roundHalfAway (q : ℚ) : ℤ :=
  if 0 ≤ q.num then (2 * q.num + (q.den : ℤ)) / (2 * (q.den : ℤ))
  else -((2 * -q.num + (q.den : ℤ)) / (2 * (q.den : ℤ)))

/-- `ROUND(x, 2)`: round to two decimal places, ties away from zero. -/
def round2 (q : ℚ) : ℚ :=
  Rat.divInt (roundHalfAway (qmulInt q 100)) 100

/-- The `price_per_square_meter` column:
`ROUND(price / living_area, 2)`, NULL when either operand is NULL
(and on division by zero; see the header note). -/
def price_per_square_meter (r : RawRecord) : Option ℚ :=
  match computePrice r.raw_price, r.living_area with
  | some p, some a => if a = 0 then none else some (round2 (ratDiv p a))
  | _, _ => none

/-- Lexicographic strict comparison of character lists (codepoint order;
on the ASCII date strings at hand this is exactly the byte order of the
DuckDB binary TEXT collation). -/
def lexLt : List Char → List Char → Bool
  | _, [] => false
  | [], _ :: _ => true
  | a :: as, b :: bs =>
      if a.toNat < b.toNat then true
      else if b.toNat < a.toNat then false
      else lexLt as bs

/-- DuckDB TEXT `<`: lexicographic comparison under the binary collation. -/
def strLt (a b : String) : Bool :=
  lexLt a.data b.data

/-- The `WHERE` clause of `INSERT_DUCKDB_TABLE_QUERY`: a row is kept only
when all three conjuncts evaluate to TRUE; a NULL operand makes its
conjunct non-TRUE, so the row is dropped. -/
def passesFilter (r : RawRecord) : Bool :=
  (match r.property_type with
   | some t => t == "apartment" || t == "house"
   | none => false)
  && (match price_per_square_meter r with
      | some v => decide ((500 : ℚ) ≤ v) && decide (v ≤ (15000 : ℚ))
      | none => false)
  && (match r.scraping_date with
      | some d => strLt "2020-03-05" d
      | none => false)

/-- A Stored Record: one row of the destination `properties` table,
columns in the order of the `SELECT` list. -/
structure StoredRow where
  id : String
  scraping_date : String
  property_type : String
  municipality : String
  price : ℚ
  living_area : ℚ
  price_per_square_meter : ℚ
deriving DecidableEq

/-- Build the Stored Record for one filtered Raw Record, checking the
NOT NULL constraint of every destination column; `none` is a constraint
violation. -/
def toStoredRow (r : RawRecord) : Option StoredRow :=
  match r.scraping_date, r.property_type, r.municipality,
        computePrice r.raw_price, r.living_area, price_per_square_meter r with
  | some d, some t, some m, some p, some a, some pps =>
      some ⟨r.id, d, t, m, p, a, pps⟩
  | _, _, _, _, _, _ => none

/-- Convert every filtered row, failing the whole statement if any row
violates a NOT NULL constraint. -/
def convertRows : List RawRecord → Option (List StoredRow)
  | [] => some []
  | r :: rs =>
      match toStoredRow r, convertRows rs with
      | some s, some ss => some (s :: ss)
      | _, _ => none

/-- The destination column list of `CREATE_DUCKDB_TABLE_QUERY`:
(name, NOT NULL). Every column is declared NOT NULL. -/
def propertiesColumns : List (String × Bool) :=
  [("id", true), ("scraping_date", true), ("property_type", true),
   ("municipality", true), ("price", true), ("living_area", true),
   ("price_per_square_meter", true)]

/-- The DuckDB database file: the `properties` table either exists with a
column list, or is absent; `rows` is its content. -/
structure DB where
  tableColumns : Option (List (String × Bool))
  rows : List StoredRow
deriving DecidableEq

/-- A fresh database file: no `properties` table yet. -/
def emptyDB : DB := ⟨none, []⟩

/-- `CREATE TABLE IF NOT EXISTS properties (...)`: create the table with
the fixed column list when absent, leave an existing table untouched. -/
def createTableIfNotExists (db : DB) : DB :=
  match db.tableColumns with
  | some _ => db
  | none => ⟨some propertiesColumns, []⟩

/-- The NOT NULL constraint error raised by the `INSERT` statement. -/
def notNullMsg : String :=
  "Constraint Error: NOT NULL constraint failed: properties.municipality"

/-- `INSERT_DUCKDB_TABLE_QUERY`: append the transformed rows passing the
filter; a NOT NULL violation fails the whole statement atomically. -/
def insertRows (table : List StoredRow) (recs : List RawRecord) :
    Except String (List StoredRow) :=
  match convertRows (recs.filter passesFilter) with
  | some newRows => .ok (table ++ newRows)
  | none => .error notNullMsg

/-- The log messages `parse_jsonl_and_write_to_duckdb` can emit.
`rowCountAfterInsert` is a possible message shape a caller could look
for; the function computes the after-count but only logs the delta. -/
inductive LogEntry where
  | readingFile
  | rowsRead (n : ℕ)
  | rowCountBeforeInsert (n : ℕ)
  | rowCountAfterInsert (n : ℕ)
  | rowsInserted (n : ℕ)
deriving DecidableEq

/-- Outcome of one run: the database state it leaves behind, the log it
emitted, and the error message when it aborted. -/
inductive RunResult where
  | success (db : DB) (log : List LogEntry)
  | failure (db : DB) (log : List LogEntry) (err : String)
deriving DecidableEq

/-- The database state a run leaves behind, successful or not. -/
def resultDB : RunResult → DB
  | .success db _ => db
  | .failure db _ _ => db

/-- One invocation of `parse_jsonl_and_write_to_duckdb`: read and
validate the batch (abort on schema violation, before the database is
touched), ensure the table, count and log, insert, log the delta. -/
def runOnce (db : DB) (input : List JsonObject) : RunResult :=
  match parseBatch input with
  | .error e => .failure db [.readingFile] e
  | .ok recs =>
      match insertRows (createTableIfNotExists db).rows recs with
      | .error e =>
          .failure (createTableIfNotExists db)
            [.readingFile, .rowsRead recs.length,
             .rowCountBeforeInsert (createTableIfNotExists db).rows.length] e
      | .ok newTable =>
          .success ⟨(createTableIfNotExists db).tableColumns, newTable⟩
            [.readingFile, .rowsRead recs.length,
             .rowCountBeforeInsert (createTableIfNotExists db).rows.length,
             .rowsInserted (newTable.length - (createTableIfNotExists db).rows.length)]

/-- The database state after a sequence of runs. -/
def runSeq (db : DB) (inputs : List (List JsonObject)) : DB :=
  inputs.foldl (fun d inp => resultDB (runOnce d inp)) db

/-- The filter invariant every Stored Record is claimed to satisfy. -/
def storedOK (s : StoredRow) : Prop :=
  (s.property_type = "apartment" ∨ s.property_type = "house") ∧
  (500 : ℚ) ≤ s.price_per_square_meter ∧
  s.price_per_square_meter ≤ (15000 : ℚ) ∧
  strLt "2020-03-05" s.scraping_date = true

/-- The example input row of the spec (price 530 000 EUR/mo., 100 m2). -/
def exampleObj : JsonObject :=
  [("id", .jstr "1"), ("raw_price", .jstr "530 000€/mo."),
   ("living_area", .jnum 100), ("property_type", .jstr "apartment"),
   ("municipality", .jstr "Zug"), ("scraping_date", .jstr "2021-01-01")]

/-- The Raw Record the example row parses to. -/
def exampleRec : RawRecord :=
  ⟨"1", some "530 000€/mo.", some 100, some "apartment", some "Zug",
   some "2021-01-01"⟩

/-- The Stored Record the example row is transformed into. -/
def exampleRow : StoredRow :=
  ⟨"1", "2021-01-01", "apartment", "Zug", 530000, 100, 5300⟩

/-- The unparseable-price example row of the spec. -/
def notAPriceObj : JsonObject :=
  [("id", .jstr "2"), ("raw_price", .jstr "not a price"),
   ("living_area", .jnum 100), ("property_type", .jstr "apartment"),
   ("municipality", .jstr "Zug"), ("scraping_date", .jstr "2021-01-01")]

/-- The Raw Record the unparseable-price row parses to. -/
def notAPriceRec : RawRecord :=
  ⟨"2", some "not a price", some 100, some "apartment", some "Zug",
   some "2021-01-01"⟩

/-- A row passing all three filter predicates but with a null
`municipality`. -/
def municipNullObj : JsonObject :=
  [("id", .jstr "3"), ("raw_price", .jstr "530 000€/mo."),
   ("living_area", .jnum 100), ("property_type", .jstr "apartment"),
   ("scraping_date", .jstr "2021-01-01")]

/-- A row with a null `property_type` (silently dropped by the filter). -/
def nullPropTypeObj : JsonObject :=
  [("id", .jstr "4"), ("raw_price", .jstr "530 000€/mo."),
   ("living_area", .jnum 100), ("municipality", .jstr "Zug"),
   ("scraping_date", .jstr "2021-01-01")]

/-- The Raw Record `municipNullObj` parses to. -/
def municipNullRec : RawRecord :=
  ⟨"3", some "530 000€/mo.", some 100, some "apartment", none,
   some "2021-01-01"⟩

/-- The Raw Record `nullPropTypeObj` parses to. -/
def nullPropTypeRec : RawRecord :=
  ⟨"4", some "530 000€/mo.", some 100, none, some "Zug",
   some "2021-01-01"⟩

/-- Recognize a log message reporting the after-insert row count. -/
def isAfterCountEntry : LogEntry → Bool
  | .rowCountAfterInsert _ => true
  | _ => false

/-- A JSON object with the example row fields but no `id` field. -/
def missingIdObj : JsonObject :=
  [("raw_price", .jstr "530 000€/mo."), ("living_area", .jnum 100),
   ("property_type", .jstr "apartment"), ("municipality", .jstr "Zug"),
   ("scraping_date", .jstr "2021-01-01")]

/-- The field is absent from the object or bound to JSON null. -/
def fieldAbsentOrNull (obj : JsonObject) (name : String) : Bool :=
  match lookupField obj name with
  | none => true
  | some .jnull => true
  | some _ => false

/-- The field is present with a JSON value of the wrong type for its
`PA_SCHEMA` declaration. -/
def fieldTypeMismatch (obj : JsonObject) (f : PAField) : Bool :=
  match lookupField obj f.name with
  | none => false
  | some .jnull => false
  | some v =>
      match f.ptype, v with
      | .paString, .jstr _ => false
      | .paFloat64, .jnum _ => false
      | _, _ => true

/-- The record violates `PA_SCHEMA`: the required `id` is missing or
null, or some declared field is present with the wrong type. -/
def schemaViolation (obj : JsonObject) : Bool :=
  fieldAbsentOrNull obj "id" || PA_SCHEMA.any (fun f => fieldTypeMismatch obj f)

end PropertyETL

namespace PropertyETL

/-- `ratDiv` is ordinary division of rationals. -/
theorem ratDiv_eq (a b : ℚ) : ratDiv a b = a / b := by
  rcases eq_or_ne b 0 with hb | hb
  · subst hb
    simp [ratDiv]
  · have had : ((a.den : ℚ)) ≠ 0 := by
      exact_mod_cast a.den_nz
    have hbd : ((b.den : ℚ)) ≠ 0 := by
      exact_mod_cast b.den_nz
    have ha' : ((a.num : ℚ)) = a * a.den := (div_eq_iff had).mp (Rat.num_div_den a)
    have hb' : ((b.num : ℚ)) = b * b.den := (div_eq_iff hbd).mp (Rat.num_div_den b)
    rw [ratDiv, Rat.divInt_eq_div]
    push_cast
    field_simp
    rw [ha', hb']
    ring

/-- `qmulInt` is ordinary multiplication by an integer. -/
theorem qmulInt_eq (q : ℚ) (k : ℤ) : qmulInt q k = q * k := by
  have hqd : ((q.den : ℚ)) ≠ 0 := by
    exact_mod_cast q.den_nz
  have hq' : ((q.num : ℚ)) = q * q.den := (div_eq_iff hqd).mp (Rat.num_div_den q)
  rw [qmulInt, Rat.divInt_eq_div]
  push_cast
  rw [hq', div_eq_iff hqd]
  ring

/-- `roundHalfAway` is rounding to the nearest integer with ties away
from zero, written with `Int.floor`. -/
theorem roundHalfAway_eq (q : ℚ) :
    roundHalfAway q = if 0 ≤ q then ⌊q + 1 / 2⌋ else -⌊-q + 1 / 2⌋ := by
  have hden : ((q.den : ℚ)) ≠ 0 := by
    exact_mod_cast q.den_nz
  have hden2 : ((2 * q.den : ℕ) : ℚ) ≠ 0 := by
    have := q.den_nz
    positivity
  have hq : ((q.num : ℚ)) = q * q.den := (div_eq_iff hden).mp (Rat.num_div_den q)
  have hcast : ((2 * q.den : ℕ) : ℤ) = 2 * (q.den : ℤ) := by
    push_cast
    ring
  have h1 : ⌊(q + 1 / 2 : ℚ)⌋ = (2 * q.num + (q.den : ℤ)) / (2 * (q.den : ℤ)) := by
    have e : (q + 1 / 2 : ℚ) =
        ((2 * q.num + (q.den : ℤ) : ℤ) : ℚ) / ((2 * q.den : ℕ) : ℚ) := by
      rw [eq_div_iff hden2]
      push_cast
      rw [hq]
      ring
    rw [e, Rat.floor_intCast_div_natCast, hcast]
  have h2 : ⌊(-q + 1 / 2 : ℚ)⌋ = (2 * -q.num + (q.den : ℤ)) / (2 * (q.den : ℤ)) := by
    have e : (-q + 1 / 2 : ℚ) =
        ((2 * -q.num + (q.den : ℤ) : ℤ) : ℚ) / ((2 * q.den : ℕ) : ℚ) := by
      rw [eq_div_iff hden2]
      push_cast
      rw [hq]
      ring
    rw [e, Rat.floor_intCast_div_natCast, hcast]
  by_cases h0 : 0 ≤ q.num
  · have h0' : 0 ≤ q := Rat.num_nonneg.mp h0
    unfold roundHalfAway
    rw [if_pos h0, if_pos h0', h1]
  · have h0' : ¬ 0 ≤ q := fun hc => h0 (Rat.num_nonneg.mpr hc)
    unfold roundHalfAway
    rw [if_neg h0, if_neg h0', h2]

/-- `round2` is the textbook two-decimal rounding, ties away from zero. -/
theorem round2_eq (q : ℚ) :
    round2 q =
      ((if 0 ≤ q * 100 then ⌊q * 100 + 1 / 2⌋ else -⌊-(q * 100) + 1 / 2⌋ : ℤ) : ℚ) / 100 := by
  rw [round2, Rat.divInt_eq_div, qmulInt_eq, roundHalfAway_eq]
  norm_num

/-- Inversion of the derived column: a non-NULL `price_per_square_meter`
comes from a successfully cast price and a non-NULL, nonzero living
area, and is the rounded quotient. -/
theorem pps_inversion {r : RawRecord} {v : ℚ}
    (h : price_per_square_meter r = some v) :
    ∃ p a, computePrice r.raw_price = some p ∧ r.living_area = some a ∧
      a ≠ 0 ∧ v = round2 (ratDiv p a) := by
  unfold price_per_square_meter at h
  cases hp : computePrice r.raw_price with
  | none => rw [hp] at h; simp at h
  | some p =>
      cases ha : r.living_area with
      | none => rw [hp, ha] at h; simp at h
      | some a =>
          rw [hp, ha] at h
          by_cases h0 : a = 0
          · simp [h0] at h
          · simp [h0] at h
            exact ⟨p, a, rfl, rfl, h0, h.symm⟩

/-- Inversion of `toStoredRow`: the stored fields are the record's
non-NULL field values and derived columns. -/
theorem toStoredRow_inversion {r : RawRecord} {s : StoredRow}
    (h : toStoredRow r = some s) :
    s.id = r.id ∧
    r.scraping_date = some s.scraping_date ∧
    r.property_type = some s.property_type ∧
    r.municipality = some s.municipality ∧
    computePrice r.raw_price = some s.price ∧
    r.living_area = some s.living_area ∧
    price_per_square_meter r = some s.price_per_square_meter := by
  unfold toStoredRow at h
  split at h
  · next d t m p a pps hd ht hm hp ha hpps =>
      cases h
      exact ⟨rfl, hd, ht, hm, hp, ha, hpps⟩
  · exact absurd h (by simp)

/-- A record kept by the filter and convertible to a Stored Record
yields a row satisfying the three filter predicates. -/
theorem storedOK_of_passes {r : RawRecord} {s : StoredRow}
    (hf : passesFilter r = true) (h : toStoredRow r = some s) : storedOK s := by
  obtain ⟨-, hd, ht, -, -, -, hpps⟩ := toStoredRow_inversion h
  unfold passesFilter at hf
  rw [ht, hd, hpps] at hf
  simp only [Bool.and_eq_true, Bool.or_eq_true, beq_iff_eq, decide_eq_true_eq] at hf
  exact ⟨hf.1.1, hf.1.2.1, hf.1.2.2, hf.2⟩

/-- Every row of a successful conversion comes from a converted input
record. -/
theorem convertRows_mem {rs : List RawRecord} {ss : List StoredRow}
    (h : convertRows rs = some ss) {s : StoredRow} (hs : s ∈ ss) :
    ∃ r, r ∈ rs ∧ toStoredRow r = some s := by
  induction rs generalizing ss with
  | nil =>
      simp [convertRows] at h
      subst h
      simp at hs
  | cons r rs ih =>
      unfold convertRows at h
      cases h1 : toStoredRow r with
      | none => rw [h1] at h; simp at h
      | some s0 =>
          rw [h1] at h
          cases h2 : convertRows rs with
          | none => rw [h2] at h; simp at h
          | some ss0 =>
              rw [h2] at h
              simp at h
              subst h
              rcases List.mem_cons.mp hs with rfl | hmem
              · exact ⟨r, List.mem_cons_self r rs, h1⟩
              · rcases ih h2 hmem with ⟨r0, hr0, ht⟩
                exact ⟨r0, List.mem_cons_of_mem r hr0, ht⟩

/-- A successful conversion preserves the row count. -/
theorem convertRows_length {rs : List RawRecord} {ss : List StoredRow}
    (h : convertRows rs = some ss) : ss.length = rs.length := by
  induction rs generalizing ss with
  | nil =>
      simp [convertRows] at h
      subst h
      rfl
  | cons r rs ih =>
      unfold convertRows at h
      cases h1 : toStoredRow r with
      | none => rw [h1] at h; simp at h
      | some s0 =>
          rw [h1] at h
          cases h2 : convertRows rs with
          | none => rw [h2] at h; simp at h
          | some ss0 =>
              rw [h2] at h
              simp at h
              subst h
              simp [ih h2]

/-- One record violating a NOT NULL constraint fails the whole
conversion. -/
theorem convertRows_none_of_mem {rs : List RawRecord} {r : RawRecord}
    (hr : r ∈ rs) (hn : toStoredRow r = none) : convertRows rs = none := by
  induction rs with
  | nil => simp at hr
  | cons r0 rs ih =>
      rcases List.mem_cons.mp hr with rfl | hmem
      · unfold convertRows
        rw [hn]
      · unfold convertRows
        rw [ih hmem]
        cases toStoredRow r0 <;> rfl

/-- When every record converts, the whole conversion succeeds. -/
theorem convertRows_isSome {rs : List RawRecord}
    (h : ∀ r ∈ rs, (toStoredRow r).isSome) : (convertRows rs).isSome := by
  induction rs with
  | nil => simp [convertRows]
  | cons r0 rs ih =>
      unfold convertRows
      have h0 := h r0 (List.mem_cons_self r0 rs)
      cases h1 : toStoredRow r0 with
      | none => rw [h1] at h0; simp at h0
      | some s0 =>
          have htl : (convertRows rs).isSome :=
            ih (fun r hr => h r (List.mem_cons_of_mem r0 hr))
          cases h2 : convertRows rs with
          | none => rw [h2] at htl; simp at htl
          | some ss => simp

/-- Inversion of a successful `INSERT`: the new table is the old one
with exactly the converted filtered rows appended. -/
theorem insertRows_ok {table : List StoredRow} {recs : List RawRecord}
    {t2 : List StoredRow} (h : insertRows table recs = .ok t2) :
    ∃ new, convertRows (recs.filter passesFilter) = some new ∧
      t2 = table ++ new := by
  unfold insertRows at h
  cases hc : convertRows (recs.filter passesFilter) with
  | none => rw [hc] at h; simp at h
  | some new =>
      rw [hc] at h
      simp at h
      exact ⟨new, rfl, h.symm⟩

/-- A schema violation anywhere in the batch makes the whole parse
fail. -/
theorem parseBatch_error_of_mem {input : List JsonObject} {obj : JsonObject}
    (ho : obj ∈ input) {e0 : String} (he : parseRecord obj = .error e0) :
    ∃ e, parseBatch input = .error e := by
  induction input with
  | nil => simp at ho
  | cons i is ih =>
      rcases List.mem_cons.mp ho with rfl | hmem
      · refine ⟨e0, ?_⟩
        unfold parseBatch
        rw [he]
      · unfold parseBatch
        cases h1 : parseRecord i with
        | error e => exact ⟨e, rfl⟩
        | ok r =>
            rcases ih hmem with ⟨e, hpe⟩
            rw [hpe]
            exact ⟨e, rfl⟩

/-- A successful batch parse has one Raw Record per input line. -/
theorem parseBatch_length {input : List JsonObject} {recs : List RawRecord}
    (h : parseBatch input = .ok recs) : recs.length = input.length := by
  induction input generalizing recs with
  | nil =>
      simp [parseBatch] at h
      subst h
      rfl
  | cons i is ih =>
      unfold parseBatch at h
      cases h1 : parseRecord i with
      | error e => rw [h1] at h; simp at h
      | ok r =>
          rw [h1] at h
          cases h2 : parseBatch is with
          | error e => rw [h2] at h; simp at h
          | ok rs =>
              rw [h2] at h
              simp at h
              subst h
              simp [ih h2]

/-- A field accepted by the validator is not a type mismatch. -/
theorem parseField_ok_not_mismatch {obj : JsonObject} {f : PAField}
    {v : Option JsonValue} (h : parseField obj f = .ok v) :
    fieldTypeMismatch obj f = false := by
  unfold parseField at h
  unfold fieldTypeMismatch
  cases hl : lookupField obj f.name with
  | none => rfl
  | some jv =>
      rw [hl] at h
      cases jv with
      | jnull => rfl
      | jstr s =>
          cases hp : f.ptype
          · rfl
          · rw [hp] at h
            simp at h
      | jnum q =>
          cases hp : f.ptype
          · rw [hp] at h
            simp at h
          · rfl
      | jbool b =>
          cases hp : f.ptype <;> rw [hp] at h <;> simp at h

/-- The non-nullable `id` field only validates when present as a JSON
string. -/
theorem parseField_idField_ok {obj : JsonObject} {v : Option JsonValue}
    (h : parseField obj idField = .ok v) :
    fieldAbsentOrNull obj "id" = false ∧ ∃ s, v = some (.jstr s) := by
  unfold parseField at h
  unfold fieldAbsentOrNull
  have hname : idField.name = "id" := rfl
  rw [hname] at h
  cases hl : lookupField obj "id" with
  | none =>
      rw [hl] at h
      simp [idField] at h
  | some jv =>
      rw [hl] at h
      cases jv with
      | jnull => simp [idField] at h
      | jstr s =>
          simp [idField] at h
          exact ⟨rfl, s, h.symm⟩
      | jnum q => simp [idField] at h
      | jbool b => simp [idField] at h

/-- A record accepted by the schema-enforced parse has no schema
violation. -/
theorem parseRecord_ok_schemaViolation {obj : JsonObject} {r : RawRecord}
    (h : parseRecord obj = .ok r) : schemaViolation obj = false := by
  unfold parseRecord at h
  cases h1 : parseField obj idField with
  | error e => rw [h1] at h; simp at h
  | ok vid =>
  rw [h1] at h
  cases h2 : parseField obj rawPriceField with
  | error e => rw [h2] at h; simp at h
  | ok vrp =>
  rw [h2] at h
  cases h3 : parseField obj livingAreaField with
  | error e => rw [h3] at h; simp at h
  | ok vla =>
  rw [h3] at h
  cases h4 : parseField obj propertyTypeField with
  | error e => rw [h4] at h; simp at h
  | ok vpt =>
  rw [h4] at h
  cases h5 : parseField obj municipalityField with
  | error e => rw [h5] at h; simp at h
  | ok vmu =>
  rw [h5] at h
  cases h6 : parseField obj scrapingDateField with
  | error e => rw [h6] at h; simp at h
  | ok vsd =>
  have hid := (parseField_idField_ok h1).1
  have m1 := parseField_ok_not_mismatch h1
  have m2 := parseField_ok_not_mismatch h2
  have m3 := parseField_ok_not_mismatch h3
  have m4 := parseField_ok_not_mismatch h4
  have m5 := parseField_ok_not_mismatch h5
  have m6 := parseField_ok_not_mismatch h6
  simp [schemaViolation, PA_SCHEMA, hid, m1, m2, m3, m4, m5, m6]

/-- A schema violation in a record always fails the parse of that
record. -/
theorem parseRecord_error_of_schemaViolation {obj : JsonObject}
    (h : schemaViolation obj = true) : ∃ e, parseRecord obj = .error e := by
  cases hp : parseRecord obj with
  | error e => exact ⟨e, rfl⟩
  | ok r =>
      rw [parseRecord_ok_schemaViolation hp] at h
      exact absurd h (by simp)

/-- A record kept by the filter has non-NULL `property_type`,
`price_per_square_meter` and `scraping_date`. -/
theorem passes_inversion {r : RawRecord} (hf : passesFilter r = true) :
    ∃ t v d, r.property_type = some t ∧ price_per_square_meter r = some v ∧
      r.scraping_date = some d := by
  unfold passesFilter at hf
  cases ht : r.property_type with
  | none => rw [ht] at hf; simp at hf
  | some t =>
      rw [ht] at hf
      cases hv : price_per_square_meter r with
      | none => rw [hv] at hf; simp at hf
      | some v =>
          rw [hv] at hf
          cases hd : r.scraping_date with
          | none => rw [hd] at hf; simp at hf
          | some d => exact ⟨t, v, d, rfl, rfl, rfl⟩

/-- A NULL `municipality` violates the NOT NULL constraint of the
destination row. -/
theorem toStoredRow_none_of_municipality_none {r : RawRecord}
    (hm : r.municipality = none) : toStoredRow r = none := by
  unfold toStoredRow
  rw [hm]
  cases r.scraping_date <;> cases r.property_type <;>
    cases computePrice r.raw_price <;> cases r.living_area <;>
    cases price_per_square_meter r <;> rfl

/-- A record kept by the filter with a non-NULL `municipality` converts
to a Stored Record. -/
theorem toStoredRow_isSome_of_passes {r : RawRecord}
    (hf : passesFilter r = true) {m : String} (hm : r.municipality = some m) :
    (toStoredRow r).isSome := by
  obtain ⟨t, v, d, ht, hv, hd⟩ := passes_inversion hf
  obtain ⟨p, a, hp, ha, -, -⟩ := pps_inversion hv
  unfold toStoredRow
  rw [ht, hv, hd, hm, hp, ha]
  rfl

/-- The `WHERE` clause never reads `municipality`. -/
theorem passesFilter_ignores_municipality (r : RawRecord) (m : Option String) :
    passesFilter { r with municipality := m } = passesFilter r := rfl

/-- `CREATE TABLE IF NOT EXISTS` never adds rows. -/
theorem createTable_rows_sub {db : DB} {s : StoredRow}
    (hs : s ∈ (createTableIfNotExists db).rows) : s ∈ db.rows := by
  unfold createTableIfNotExists at hs
  rcases hdb : db.tableColumns with - | cols
  · rw [hdb] at hs
    simp at hs
  · rw [hdb] at hs
    exact hs

/-- One run preserves the filter invariant of the destination table. -/
theorem runOnce_preserves_storedOK {db : DB} {input : List JsonObject}
    (hinv : ∀ s ∈ db.rows, storedOK s) :
    ∀ s ∈ (resultDB (runOnce db input)).rows, storedOK s := by
  intro s hs
  unfold runOnce at hs
  split at hs
  · exact hinv s hs
  · split at hs
    · exact hinv s (createTable_rows_sub hs)
    · rename_i newTable hi
      obtain ⟨new, hc, rfl⟩ := insertRows_ok hi
      rcases List.mem_append.mp hs with hs1 | hs2
      · exact hinv s (createTable_rows_sub hs1)
      · obtain ⟨r, hr, ht⟩ := convertRows_mem hc hs2
        exact storedOK_of_passes (List.mem_filter.mp hr).2 ht

/-- C1: starting from an empty store, after any sequence of runs every
row of the destination table has `property_type` in {apartment, house},
`price_per_square_meter` in [500, 15000], and `scraping_date` lexically
strictly greater than "2020-03-05". -/
theorem c1_stored_rows_satisfy_filter (inputs : List (List JsonObject)) :
    ∀ s ∈ (runSeq emptyDB inputs).rows, storedOK s := by
  suffices h : ∀ (inputs : List (List JsonObject)) (db : DB),
      (∀ s ∈ db.rows, storedOK s) →
      ∀ s ∈ (runSeq db inputs).rows, storedOK s by
    exact h inputs emptyDB (by simp [emptyDB])
  intro inputs
  induction inputs with
  | nil =>
      intro db hdb
      simpa [runSeq] using hdb
  | cons i is ih =>
      intro db hdb
      have hseq : runSeq db (i :: is) = runSeq (resultDB (runOnce db i)) is := by
        simp [runSeq]
      rw [hseq]
      exact ih (resultDB (runOnce db i)) (runOnce_preserves_storedOK hdb)

/-- Witness for C1 at a concrete one-run input. -/
theorem c1_stored_rows_satisfy_filter_witness : storedOK exampleRow :=
  c1_stored_rows_satisfy_filter [[exampleObj]] exampleRow (by decide)

/-- C2: every row appended by a successful run stores exactly the
two-decimal rounding of its own `price / living_area`. -/
theorem c2_pps_is_rounded_quotient {db : DB} {input : List JsonObject}
    {db2 : DB} {log : List LogEntry}
    (h : runOnce db input = .success db2 log) :
    ∃ new, db2.rows = (createTableIfNotExists db).rows ++ new ∧
      ∀ s ∈ new, s.living_area ≠ 0 ∧
        s.price_per_square_meter = round2 (s.price / s.living_area) := by
  unfold runOnce at h
  split at h
  · simp at h
  · split at h
    · simp at h
    · rename_i newTable hi
      obtain ⟨new, hc, rfl⟩ := insertRows_ok hi
      injection h with h1 h2
      refine ⟨new, by rw [← h1], ?_⟩
      intro s hs
      obtain ⟨r, hr, ht⟩ := convertRows_mem hc hs
      obtain ⟨-, -, -, -, hpc, hla, hpps⟩ := toStoredRow_inversion ht
      obtain ⟨p, a, hp2, ha2, ha0, hv⟩ := pps_inversion hpps
      have hpe : p = s.price := by
        rw [hpc] at hp2
        exact (Option.some_inj.mp hp2).symm
      have hae : a = s.living_area := by
        rw [hla] at ha2
        exact (Option.some_inj.mp ha2).symm
      subst hpe hae
      exact ⟨ha0, by rw [← ratDiv_eq]; exact hv⟩

/-- Witness for C2 at a concrete successful run. -/
theorem c2_pps_is_rounded_quotient_witness :
    ∃ new, (⟨some propertiesColumns, [exampleRow]⟩ : DB).rows =
        (createTableIfNotExists emptyDB).rows ++ new ∧
      ∀ s ∈ new, s.living_area ≠ 0 ∧
        s.price_per_square_meter = round2 (s.price / s.living_area) :=
  @c2_pps_is_rounded_quotient emptyDB [exampleObj]
    ⟨some propertiesColumns, [exampleRow]⟩
    [.readingFile, .rowsRead 1, .rowCountBeforeInsert 0, .rowsInserted 1]
    (by decide)

/-- C3: the price is extracted by taking the text before the currency
marker, deleting spaces and try-casting; when the cast fails the price
is NULL, the row fails the range filter and is not inserted, and the run
still succeeds (shown on the "not a price" example row). -/
theorem c3_unparseable_price_dropped :
    (∀ r : RawRecord, computePrice r.raw_price = none → passesFilter r = false) ∧
    computePrice (some "not a price") = none ∧
    parseRecord notAPriceObj = .ok notAPriceRec ∧
    runOnce emptyDB [notAPriceObj] =
      .success ⟨some propertiesColumns, []⟩
        [.readingFile, .rowsRead 1, .rowCountBeforeInsert 0, .rowsInserted 0] := by
  refine ⟨?_, by decide, by rfl, by decide⟩
  intro r h
  have hpps : price_per_square_meter r = none := by
    unfold price_per_square_meter
    rw [h]
  unfold passesFilter
  rw [hpps]
  simp

/-- Witness for C3: the unparseable-price record is rejected by the
filter. -/
theorem c3_unparseable_price_dropped_witness :
    passesFilter notAPriceRec = false :=
  c3_unparseable_price_dropped.1 notAPriceRec (by decide)

/-- C4: a batch containing a record that violates the schema (missing
required `id`, or a field of the wrong type) aborts the whole run with a
schema-violation error before any insertion; the destination rows are
unchanged. -/
theorem c4_schema_violation_aborts {db : DB} {input : List JsonObject}
    {obj : JsonObject} (ho : obj ∈ input) (hv : schemaViolation obj = true) :
    ∃ e, runOnce db input = .failure db [.readingFile] e ∧
      (resultDB (runOnce db input)).rows = db.rows := by
  obtain ⟨e0, he⟩ := parseRecord_error_of_schemaViolation hv
  obtain ⟨e, hb⟩ := parseBatch_error_of_mem ho he
  refine ⟨e, ?_, ?_⟩
  · unfold runOnce
    rw [hb]
  · unfold runOnce
    rw [hb]
    rfl

/-- Witness for C4 on a record missing the required `id`. -/
theorem c4_schema_violation_aborts_witness :
    ∃ e, runOnce emptyDB [missingIdObj] = .failure emptyDB [.readingFile] e ∧
      (resultDB (runOnce emptyDB [missingIdObj])).rows = emptyDB.rows :=
  @c4_schema_violation_aborts emptyDB [missingIdObj] missingIdObj (by decide)
    (by decide)

/-- C5: the example input row is transformed to price 530000 and
price_per_square_meter 5300 and is kept by the filter and inserted. -/
theorem c5_example_row_kept :
    computePrice (some "530 000€/mo.") = some 530000 ∧
    parseRecord exampleObj = .ok exampleRec ∧
    price_per_square_meter exampleRec = some 5300 ∧
    passesFilter exampleRec = true ∧
    runOnce emptyDB [exampleObj] =
      .success ⟨some propertiesColumns, [exampleRow]⟩
        [.readingFile, .rowsRead 1, .rowCountBeforeInsert 0, .rowsInserted 1] :=
  ⟨by decide, by rfl, by decide, by decide, by decide⟩

/-- C6: table creation is idempotent: a second run of the initializer is
the identity, the table exists afterwards with the fixed column list,
and an existing table and its contents are left unchanged. -/
theorem c6_create_table_idempotent (db : DB) :
    createTableIfNotExists (createTableIfNotExists db) = createTableIfNotExists db ∧
    (createTableIfNotExists db).tableColumns.isSome = true ∧
    (db.tableColumns = none →
      createTableIfNotExists db = ⟨some propertiesColumns, []⟩) ∧
    (∀ cols, db.tableColumns = some cols → createTableIfNotExists db = db) := by
  rcases hdb : db.tableColumns with - | cols
  · refine ⟨?_, ?_, ?_, ?_⟩ <;> simp [createTableIfNotExists, hdb]
  · refine ⟨?_, ?_, ?_, ?_⟩ <;> simp [createTableIfNotExists, hdb]

/-- Full inversion of a successful run: the parse succeeded, the
conversion of the filtered rows succeeded, and the final state and log
are determined by them. -/
theorem runOnce_success_inversion {db : DB} {input : List JsonObject}
    {db2 : DB} {log : List LogEntry}
    (h : runOnce db input = .success db2 log) :
    ∃ recs new, parseBatch input = .ok recs ∧
      convertRows (recs.filter passesFilter) = some new ∧
      db2 = ⟨(createTableIfNotExists db).tableColumns,
             (createTableIfNotExists db).rows ++ new⟩ ∧
      log = [.readingFile, .rowsRead recs.length,
             .rowCountBeforeInsert (createTableIfNotExists db).rows.length,
             .rowsInserted (((createTableIfNotExists db).rows ++ new).length -
                            (createTableIfNotExists db).rows.length)] := by
  cases hpb : parseBatch input with
  | error e =>
      unfold runOnce at h
      rw [hpb] at h
      simp at h
  | ok recs =>
      cases hib : insertRows (createTableIfNotExists db).rows recs with
      | error e =>
          simp only [runOnce, hpb, hib] at h
          simp at h
      | ok newTable =>
          simp only [runOnce, hpb, hib] at h
          obtain ⟨new, hc, rfl⟩ := insertRows_ok hib
          injection h with h1 h2
          exact ⟨recs, new, rfl, hc, h1.symm, h2.symm⟩

/-- A run against a store whose table already exists appends the
converted filtered rows of the batch. -/
theorem runOnce_on_existing {cols : List (String × Bool)}
    {rows new : List StoredRow} {input : List JsonObject}
    {recs : List RawRecord} (hp : parseBatch input = .ok recs)
    (hc : convertRows (recs.filter passesFilter) = some new) :
    runOnce ⟨some cols, rows⟩ input =
      .success ⟨some cols, rows ++ new⟩
        [.readingFile, .rowsRead recs.length,
         .rowCountBeforeInsert rows.length,
         .rowsInserted ((rows ++ new).length - rows.length)] := by
  have hins : insertRows rows recs = .ok (rows ++ new) := by
    unfold insertRows
    rw [hc]
  simp only [runOnce, hp, createTableIfNotExists, hins]

/-- Witness for C6 on a fresh store and on a store whose table already
holds a row. -/
theorem c6_create_table_idempotent_witness :
    createTableIfNotExists emptyDB = ⟨some propertiesColumns, []⟩ ∧
    createTableIfNotExists (createTableIfNotExists emptyDB) =
      createTableIfNotExists emptyDB ∧
    createTableIfNotExists ⟨some propertiesColumns, [exampleRow]⟩ =
      ⟨some propertiesColumns, [exampleRow]⟩ :=
  ⟨(c6_create_table_idempotent emptyDB).2.2.1 rfl,
   (c6_create_table_idempotent emptyDB).1,
   (c6_create_table_idempotent ⟨some propertiesColumns, [exampleRow]⟩).2.2.2
     propertiesColumns rfl⟩

/-- C7: the load never deduplicates or upserts: running the full run a
second time on the same input appends the same surviving rows again, so
the row count doubles, and the previously stored rows are still there,
unchanged, as a prefix. -/
theorem c7_rerun_appends_duplicates {input : List JsonObject} {db1 : DB}
    {log1 : List LogEntry} (h : runOnce emptyDB input = .success db1 log1) :
    ∃ log2, runOnce db1 input =
        .success ⟨db1.tableColumns, db1.rows ++ db1.rows⟩ log2 ∧
      (db1.rows ++ db1.rows).length = 2 * db1.rows.length := by
  obtain ⟨recs, new, hp, hc, hdb, -⟩ := runOnce_success_inversion h
  subst hdb
  refine ⟨_, runOnce_on_existing hp hc, ?_⟩
  simp only [List.length_append, two_mul]

/-- Witness for C7 at a concrete one-row input. -/
theorem c7_rerun_appends_duplicates_witness :
    ∃ log2, runOnce ⟨some propertiesColumns, [exampleRow]⟩ [exampleObj] =
        .success ⟨some propertiesColumns, [exampleRow, exampleRow]⟩ log2 ∧
      ([exampleRow, exampleRow] : List StoredRow).length =
        2 * ([exampleRow] : List StoredRow).length :=
  @c7_rerun_appends_duplicates [exampleObj]
    ⟨some propertiesColumns, [exampleRow]⟩
    [.readingFile, .rowsRead 1, .rowCountBeforeInsert 0, .rowsInserted 1]
    (by decide)

/-- C8 counterexample: on a concrete successful run the emitted log has
no entry reporting the after-insert row count (the code computes it but
logs only the delta), refuting the claim that the after-count is
reported. -/
theorem c8_no_after_count_logged :
    runOnce emptyDB [exampleObj] =
      .success ⟨some propertiesColumns, [exampleRow]⟩
        [.readingFile, .rowsRead 1, .rowCountBeforeInsert 0, .rowsInserted 1] ∧
    List.any [LogEntry.readingFile, .rowsRead 1, .rowCountBeforeInsert 0,
              .rowsInserted 1] isAfterCountEntry = false :=
  ⟨by decide, by decide⟩

/-- C8 amended: every successful run logs the rows read, the
destination row count before insertion, and the delta, which equals the
number of rows passing the filter; the after-insert count itself is
never logged. -/
theorem c8_logs_read_before_delta {db : DB} {input : List JsonObject}
    {db2 : DB} {log : List LogEntry}
    (h : runOnce db input = .success db2 log) :
    ∃ recs, parseBatch input = .ok recs ∧ recs.length = input.length ∧
      log = [.readingFile, .rowsRead recs.length,
             .rowCountBeforeInsert (createTableIfNotExists db).rows.length,
             .rowsInserted (recs.filter passesFilter).length] ∧
      db2.rows.length = (createTableIfNotExists db).rows.length +
        (recs.filter passesFilter).length ∧
      log.any isAfterCountEntry = false := by
  obtain ⟨recs, new, hp, hc, hdb, hlog⟩ := runOnce_success_inversion h
  have hlen : new.length = (recs.filter passesFilter).length :=
    convertRows_length hc
  refine ⟨recs, hp, parseBatch_length hp, ?_, ?_, ?_⟩
  · rw [hlog]
    simp [hlen]
  · rw [hdb]
    simp [hlen]
  · rw [hlog]
    simp [isAfterCountEntry]

/-- Witness for the amended C8 at a concrete successful run. -/
theorem c8_logs_read_before_delta_witness :
    ∃ recs, parseBatch [exampleObj] = .ok recs ∧
      recs.length = ([exampleObj] : List JsonObject).length ∧
      [LogEntry.readingFile, .rowsRead 1, .rowCountBeforeInsert 0,
       .rowsInserted 1] =
        [LogEntry.readingFile, .rowsRead recs.length,
         .rowCountBeforeInsert (createTableIfNotExists emptyDB).rows.length,
         .rowsInserted (recs.filter passesFilter).length] ∧
      (⟨some propertiesColumns, [exampleRow]⟩ : DB).rows.length =
        (createTableIfNotExists emptyDB).rows.length +
          (recs.filter passesFilter).length ∧
      List.any [LogEntry.readingFile, .rowsRead 1, .rowCountBeforeInsert 0,
                .rowsInserted 1] isAfterCountEntry = false :=
  @c8_logs_read_before_delta emptyDB [exampleObj]
    ⟨some propertiesColumns, [exampleRow]⟩
    [.readingFile, .rowsRead 1, .rowCountBeforeInsert 0, .rowsInserted 1]
    (by decide)

/-- C9: `municipality` is nullable on input, NOT NULL in the destination
and never tested by the filter; a record passing all three predicates
with a NULL `municipality` aborts the whole run with the NOT NULL
constraint error (table unchanged), and it is the only declared-nullable
input field that can abort a run after a successful parse. -/
theorem c9_null_municipality_aborts :
    (municipalityField.nullable = true ∧
      ("municipality", true) ∈ propertiesColumns) ∧
    (∀ (r : RawRecord) (m : Option String),
      passesFilter { r with municipality := m } = passesFilter r) ∧
    (∀ (db : DB) (input : List JsonObject) (recs : List RawRecord)
      (r : RawRecord),
      parseBatch input = .ok recs → r ∈ recs → r.municipality = none →
      passesFilter r = true →
      runOnce db input = .failure (createTableIfNotExists db)
        [.readingFile, .rowsRead recs.length,
         .rowCountBeforeInsert (createTableIfNotExists db).rows.length]
        notNullMsg) ∧
    (∀ (db : DB) (input : List JsonObject) (recs : List RawRecord),
      parseBatch input = .ok recs →
      (∀ r ∈ recs, passesFilter r = true → r.municipality ≠ none) →
      ∃ db2 log, runOnce db input = .success db2 log) := by
  refine ⟨⟨rfl, by decide⟩, fun r m => rfl, ?_, ?_⟩
  · intro db input recs r hp hr hm hf
    have hmem : r ∈ recs.filter passesFilter := List.mem_filter.mpr ⟨hr, hf⟩
    have hnone : convertRows (recs.filter passesFilter) = none :=
      convertRows_none_of_mem hmem (toStoredRow_none_of_municipality_none hm)
    have hins : insertRows (createTableIfNotExists db).rows recs =
        .error notNullMsg := by
      unfold insertRows
      rw [hnone]
    simp only [runOnce, hp, hins]
  · intro db input recs hp hall
    have hsome : (convertRows (recs.filter passesFilter)).isSome := by
      apply convertRows_isSome
      intro r hr
      have hrin := (List.mem_filter.mp hr).1
      have hf := (List.mem_filter.mp hr).2
      rcases ho : r.municipality with - | m
      · exact absurd ho (hall r hrin hf)
      · exact toStoredRow_isSome_of_passes hf ho
    cases hcv : convertRows (recs.filter passesFilter) with
    | none => rw [hcv] at hsome; simp at hsome
    | some new =>
        have hins : insertRows (createTableIfNotExists db).rows recs =
            .ok ((createTableIfNotExists db).rows ++ new) := by
          unfold insertRows
          rw [hcv]
        refine ⟨⟨(createTableIfNotExists db).tableColumns,
                 (createTableIfNotExists db).rows ++ new⟩,
                [.readingFile, .rowsRead recs.length,
                 .rowCountBeforeInsert (createTableIfNotExists db).rows.length,
                 .rowsInserted
                   (((createTableIfNotExists db).rows ++ new).length -
                    (createTableIfNotExists db).rows.length)], ?_⟩
        simp only [runOnce, hp, hins]

/-- Witness for C9 on a concrete filter-passing record with NULL
municipality. -/
theorem c9_null_municipality_aborts_witness :
    runOnce emptyDB [municipNullObj] =
      .failure (createTableIfNotExists emptyDB)
        [.readingFile, .rowsRead 1, .rowCountBeforeInsert 0] notNullMsg :=
  c9_null_municipality_aborts.2.2.1 emptyDB [municipNullObj]
    [municipNullRec] municipNullRec (by rfl) (by decide) (by rfl) (by decide)

/-- C10: a NULL `property_type`, `scraping_date` or `living_area` makes
the row fail the filter; filtered-out rows are invisible to the insert
step, so such records never abort the run and never produce a stored
row (shown on a concrete two-row batch whose second record has a NULL
`property_type`). -/
theorem c10_null_fields_silently_dropped :
    (∀ r : RawRecord,
      r.property_type = none ∨ r.scraping_date = none ∨
        r.living_area = none →
      passesFilter r = false) ∧
    (∀ (table : List StoredRow) (recs : List RawRecord),
      insertRows table recs = insertRows table (recs.filter passesFilter)) ∧
    runOnce emptyDB [exampleObj, nullPropTypeObj] =
      .success ⟨some propertiesColumns, [exampleRow]⟩
        [.readingFile, .rowsRead 2, .rowCountBeforeInsert 0,
         .rowsInserted 1] := by
  refine ⟨?_, ?_, by decide⟩
  · intro r h
    unfold passesFilter
    rcases h with h | h | h
    · rw [h]
      simp
    · rw [h]
      simp
    · have hpps : price_per_square_meter r = none := by
        unfold price_per_square_meter
        rw [h]
        cases computePrice r.raw_price <;> rfl
      rw [hpps]
      simp
  · intro table recs
    have hff : (recs.filter passesFilter).filter passesFilter =
        recs.filter passesFilter := by
      rw [List.filter_filter]
      simp
    unfold insertRows
    rw [hff]

/-- Witness for C10 on a record with NULL property_type. -/
theorem c10_null_fields_silently_dropped_witness :
    passesFilter nullPropTypeRec = false :=
  c10_null_fields_silently_dropped.1 nullPropTypeRec (Or.inl rfl)

end PropertyETL
